import Mathlib

/-!
Verification development for the SmugMug-to-Google-Drive migration tool.

The definitions below are a shallow embedding of the two Python sources
`smugmug_to_gdrive.py` (CLI) and `smugmug_to_gdrive_gui.py` (GUI).  Pure
functions become Lean functions; the stateful per-item loop of `migrate`
(CLI, lines 462-524) becomes explicit state passing producing a trace of
effects; fallible steps return `Option`/`Except`.  Network calls are
abstracted by an environment record of oracles giving each call's outcome.
-/

/-! ## Migration state (ledger), `MigrationState` in both sources.

The CLI source keeps `migrated` as a Python set of image keys and `failed`
as a dict from image key to error message.  We model the set as a
duplicate-free-by-construction list and the dict as an association list
whose update keeps keys unique, mirroring Python set/dict semantics. -/

structure MigrationState where
  migrated : List String
  failed : List (String × String)
deriving DecidableEq, Repr

/-- `is_done` (source line 357-358): membership of the key in `migrated`. -/
def MigrationState.is_done (s : MigrationState) (k : String) : Bool :=
  s.migrated.contains k

/-- Key membership in the `failed` dict (`image_key in state.failed`). -/
def MigrationState.failed_has (s : MigrationState) (k : String) : Bool :=
  s.failed.any (fun p => p.fst == k)

/-- `mark_done` (source lines 350-352): `migrated.add(key)` (a set add, so a
no-op when present) and `failed.pop(key, None)`. -/
def MigrationState.mark_done (s : MigrationState) (k : String) : MigrationState :=
  { migrated := if s.migrated.contains k then s.migrated else s.migrated ++ [k],
    failed := s.failed.filter (fun p => !(p.fst == k)) }

/-- `mark_failed` (source lines 354-355): `failed[key] = error`, a dict
assignment that overwrites the value when the key is present and inserts
otherwise.  The `migrated` set is untouched. -/
def MigrationState.mark_failed (s : MigrationState) (k err : String) : MigrationState :=
  { migrated := s.migrated,
    failed :=
      if s.failed.any (fun p => p.fst == k) then
        s.failed.map (fun p => if p.fst == k then (k, err) else p)
      else
        s.failed ++ [(k, err)] }

/-- The ledger records an id at most once: no id is simultaneously in the
migrated set and among the failed keys. -/
def MigrationState.disjoint (s : MigrationState) : Prop :=
  ∀ j, s.is_done j = true → s.failed_has j = false

/-! ## Ledger file load, `MigrationState._load` (CLI lines 334-340).

The on-disk file is abstracted to three cases: absent, present but
unparsable (where `json.load` raises, which nothing in `_load` or in
`migrate` catches), and parsed content.  `set(data.get("migrated", []))`
deduplicates the list. -/

inductive LedgerFileData where
  | absent
  | malformed
  | parsed (migrated : List String) (failed : List (String × String))
deriving DecidableEq

/-- The message of the fatal error raised on a malformed ledger file. -/
def state_corruption_msg : String := "StateCorruption: ledger file present but unparsable"

/-- `_load`: an absent file leaves the freshly initialised empty state; a
malformed file makes `json.load` raise, and the error propagates out of the
`MigrationState()` constructor; parsed content fills both fields. -/
def load_state : LedgerFileData → Except String MigrationState
  | LedgerFileData.absent => Except.ok ⟨[], []⟩
  | LedgerFileData.malformed => Except.error state_corruption_msg
  | LedgerFileData.parsed m f => Except.ok ⟨m.eraseDups, f⟩

/-! ## Ledger file save, `MigrationState.save` (CLI lines 342-348).

`save` runs `open(state_file, "w")` — which truncates the file in place —
followed by `json.dump` writing the new serialization.  We model the save
as the sequence of these two disk operations and let an interruption stop
the sequence after any prefix. -/

inductive DiskOp where
  | truncate
  | write_all (s : String)
deriving DecidableEq

/-- Serialization of the state written by `json.dump` (the concrete JSON
text is irrelevant to atomicity; only that a full, nonempty string for the
current state is written after the truncation). -/
def serialize_state (s : MigrationState) : String :=
  "migrated=" ++ String.intercalate "," s.migrated ++
    ";failed=" ++ String.intercalate "," (s.failed.map (fun p => p.fst ++ ":" ++ p.snd))

/-- The disk operations performed by `save`: truncate, then write the new
serialization. -/
def save_ops (s : MigrationState) : List DiskOp :=
  [DiskOp.truncate, DiskOp.write_all (serialize_state s)]

/-- Apply one disk operation to the current file content. -/
def apply_op (disk : String) : DiskOp → String
  | DiskOp.truncate => ""
  | DiskOp.write_all str => disk ++ str

/-- File content after the first `k` operations of an (interrupted) save
over previous content `old`. -/
def disk_after (old : String) (ops : List DiskOp) (k : Nat) : String :=
  (ops.take k).foldl apply_op old

/-! ## Pagination, `SmugMugClient.get_album_images` (CLI lines 185-204).

The provider serves the listing `L` in pages of size `P`: the page at
1-based offset `start` is the slice `(L.drop (start - 1)).take P`, and the
reported `Pages.Total` is `L.length`.  The loop appends each page, stops on
an empty page or when `start + page.length` exceeds the total, and
otherwise advances `start` by the actual page length.  The loop is given as
a fuel-indexed recursion; `L.length + 1` units of fuel are shown sufficient
by the theorems, since `start` strictly increases. -/

def page_at {α : Type} (L : List α) (P start : Nat) : List α :=
  (L.drop (start - 1)).take P

def paginate_loop {α : Type} (L : List α) (P : Nat) : Nat → Nat → List α → List α
  | 0, _, acc => acc
  | fuel + 1, start, acc =>
    if (page_at L P start).length = 0 then acc
    else if start + (page_at L P start).length > L.length then acc ++ page_at L P start
    else paginate_loop L P fuel (start + (page_at L P start).length) (acc ++ page_at L P start)

/-- `get_album_images`: full traversal starting from `start = 1` with an
empty accumulator. -/
def get_album_images {α : Type} (L : List α) (P : Nat) : List α :=
  paginate_loop L P (L.length + 1) 1 []

/-! ## Google Drive folder store, `GoogleDriveClient.get_or_create_folder`
(CLI lines 271-298).

The destination is a list of folder objects plus a counter from which
fresh ids are produced.  The query built at lines 278-281 filters on exact
name, folder mime type and `trashed=false`, and adds the parent constraint
only when a parent id is given; `files[0]` takes the first match. -/

structure Folder where
  fid : String
  name : String
  parent : Option String
  trashed : Bool
deriving DecidableEq, Repr

structure Drive where
  folders : List Folder
  next_id : Nat
deriving DecidableEq, Repr

/-- The destination-side search performed on a cache miss: first non-trashed
folder with exactly the requested name, under the requested parent when one
is given (no parent constraint otherwise, as in the source). -/
def folder_query (d : Drive) (name : String) (parent : Option String) : Option Folder :=
  d.folders.find? (fun f =>
    f.name == name &&
    (match parent with
     | none => true
     | some p => f.parent == some p) &&
    !f.trashed)

/-- The in-run cache key, `f"{parent_id or 'root'}/{name}"` (line 273). -/
def cache_key (name : String) (parent : Option String) : String :=
  (match parent with
   | none => "root"
   | some p => p) ++ "/" ++ name

abbrev FolderCache := List (String × String)

inductive FolderEff where
  | fquery (name : String) (parent : Option String)
  | fcreate (name : String) (parent : Option String) (fid : String)
deriving DecidableEq, Repr

/-- Fresh id for a folder created by `files().create` (opaque provider id). -/
def fresh_folder_id (d : Drive) : String := "gd" ++ toString d.next_id

/-- `get_or_create_folder`: consult the cache; on miss query the store; use
the first match if any, else create the folder; cache the id either way.
Returns (folder id, new store, new cache, destination calls made). -/
def get_or_create_folder (d : Drive) (c : FolderCache) (name : String)
    (parent : Option String) : String × Drive × FolderCache × List FolderEff :=
  match c.lookup (cache_key name parent) with
  | some fid => (fid, d, c, [])
  | none =>
    match folder_query d name parent with
    | some f => (f.fid, d, (cache_key name parent, f.fid) :: c, [FolderEff.fquery name parent])
    | none =>
      let fid := fresh_folder_id d
      (fid,
       ⟨d.folders ++ [⟨fid, name, parent, false⟩], d.next_id + 1⟩,
       (cache_key name parent, fid) :: c,
       [FolderEff.fquery name parent, FolderEff.fcreate name parent fid])

/-- Process a sequence of ensure-folder requests within one run, threading
store and cache, concatenating the destination calls. -/
def run_folder_requests : List (String × Option String) → Drive → FolderCache →
    Drive × FolderCache × List FolderEff
  | [], d, c => (d, c, [])
  | (n, p) :: rest, d, c =>
    let r := get_or_create_folder d c n p
    let rr := run_folder_requests rest r.2.1 r.2.2.1
    (rr.1, rr.2.1, r.2.2.2 ++ rr.2.2)

/-- Number of folder creations for a given cache key in a call trace. -/
def creates_for (key : String) (effs : List FolderEff) : Nat :=
  effs.countP (fun e =>
    match e with
    | FolderEff.fcreate n p _ => cache_key n p == key
    | _ => false)

/-- Folder-path materialization for one collection (`migrate` lines
421-446): ensure the root folder (no parent), then each path segment in
order under the previous folder.  Returns (final folder id, store, cache,
destination calls). -/
def ensure_path (d : Drive) (c : FolderCache) (root_name : String) (parts : List String) :
    String × Drive × FolderCache × List FolderEff :=
  let r0 := get_or_create_folder d c root_name none
  parts.foldl
    (fun acc part =>
      let r := get_or_create_folder acc.2.1 acc.2.2.1 part (some acc.1)
      (r.1, r.2.1, r.2.2.1, acc.2.2.2 ++ r.2.2.2))
    (r0.1, r0.2.1, r0.2.2.1, r0.2.2.2)

/-! ## Drive query strings, `file_exists` (CLI lines 315-319) and the
folder search of `get_or_create_folder` (CLI lines 277-281).

Both interpolate the raw name between single-quote delimiters with no
escaping.  `escape_sq` and the `escaped_*` builders below are the
reference definitions for an exact-name filter (the Drive query language
escapes an embedded single quote with a backslash); they exist only to be
compared against the source-derived builders. -/

/-- The single-quote character (code 39). -/
def squote_char : Char := Char.ofNat 39

/-- The single-quote as a one-character string. -/
def squote : String := String.mk [squote_char]

/-- The backslash character (code 92). -/
def bs_char : Char := Char.ofNat 92

/-- Escape every single quote in a character list with a backslash. -/
def escape_chars : List Char → List Char
  | [] => []
  | ch :: rest =>
    if ch = squote_char then bs_char :: ch :: escape_chars rest
    else ch :: escape_chars rest

/-- Escape every single quote in a string with a backslash. -/
def escape_sq (s : String) : String := String.mk (escape_chars s.data)

/-- The query string built by `file_exists` (line 317):
`name='{filename}' and '{folder_id}' in parents and trashed=false`. -/
def file_exists_query (filename folder_id : String) : String :=
  "name=" ++ squote ++ filename ++ squote ++ " and " ++ squote ++ folder_id ++ squote ++
    " in parents and trashed=false"

/-- Reference: the exact-name in-parent non-trashed filter, with proper
quote escaping of the interpolated values. -/
def escaped_file_exists_query (filename folder_id : String) : String :=
  "name=" ++ squote ++ escape_sq filename ++ squote ++ " and " ++ squote ++ escape_sq folder_id ++ squote ++
    " in parents and trashed=false"

/-- The query string built by `get_or_create_folder` (lines 278-280),
with the parent clause appended only when a parent id is given. -/
def folder_search_query (name : String) (parent : Option String) : String :=
  "name=" ++ squote ++ name ++ squote ++ " and mimeType=" ++ squote ++
    "application/vnd.google-apps.folder" ++ squote ++ " and trashed=false" ++
    (match parent with
     | none => ""
     | some p => " and " ++ squote ++ p ++ squote ++ " in parents")

/-- Reference: the folder search filter with proper quote escaping. -/
def escaped_folder_search_query (name : String) (parent : Option String) : String :=
  "name=" ++ squote ++ escape_sq name ++ squote ++ " and mimeType=" ++ squote ++
    "application/vnd.google-apps.folder" ++ squote ++ " and trashed=false" ++
    (match parent with
     | none => ""
     | some p => " and " ++ squote ++ escape_sq p ++ squote ++ " in parents")

/-! ## The migration engine item loop, `migrate` (CLI lines 453-527).

`Flags` are the run flags of `migrate`; `Env` holds one oracle per
external call, keyed by the image key of the item being processed, giving
that call's outcome (the destination existence check is keyed by filename
and folder id as in the source).  `process_item` is the loop body for one
image (lines 462-524); `run_items` is the loop over one album's images;
`migrate_album` adds the dry-run branch (lines 453-459) and the final
`state.save()` (line 527).

Python scoping detail modelled faithfully: `tmp_path` is a function-scoped
name first assigned inside the `try` block.  If temporary-file creation
raises before any earlier item has assigned it, the `finally` clause
(lines 514-517) evaluates the unbound name and raises `NameError`, which
no enclosing handler catches; the run aborts.  `tmp_defined` tracks
whether `tmp_path` has been bound by some earlier (or the current) item. -/

structure Flags where
  dry_run : Bool
  skip_existing : Bool
  retry_failed : Bool
deriving DecidableEq, Repr

structure Item where
  image_key : String
  file_name : String
deriving DecidableEq, Repr

structure Env where
  file_exists : String → String → Bool
  locator_url : String → Option String
  staging_error : String → Option String
  download_ok : String → Bool
  upload_error : String → Option String

inductive Eff where
  | exists_check (image_key file_name : String)
  | fetch_locator (image_key : String)
  | download (image_key url : String)
  | upload (image_key file_name : String)
  | mark_done (image_key : String)
  | mark_failed (image_key reason : String)
  | save_eff
  | report (file_name status : String)
deriving DecidableEq, Repr

/-- The error message of the `NameError` raised by the `finally` clause
when `tmp_path` was never assigned. -/
def name_error_msg : String := "NameError: tmp_path is not defined"

/-- The reason recorded when no download URL could be resolved (line 490). -/
def no_url_msg : String := "Could not get download URL"

/-- The message of the exception raised when `download_image` returns
`False` (line 502). -/
def download_failed_msg : String := "Download returned False"

structure RunSt where
  st : MigrationState
  migrated_count : Nat
  skipped_count : Nat
  failed_count : Nat
  tmp_defined : Bool
deriving DecidableEq, Repr

/-- The periodic save of lines 519-521: reached only by items that went
through the download/upload `try` block; saves when `migrated_count +
failed_count` is a multiple of 10. -/
def save_check (rs : RunSt) : List Eff :=
  if (rs.migrated_count + rs.failed_count) % 10 == 0 then [Eff.save_eff] else []

/-- One iteration of the image loop (lines 462-524).  Returns the new loop
state, the effects (external calls and ledger mutations) of this item in
order, and `some msg` when an exception propagates out of the loop body
(aborting the run). -/
def process_item (fl : Flags) (env : Env) (folder_id : String) (rs : RunSt) (it : Item) :
    RunSt × List Eff × Option String :=
  let key := it.image_key
  let fname := it.file_name
  if rs.st.is_done key && !fl.retry_failed then
    ({ rs with skipped_count := rs.skipped_count + 1 }, [], none)
  else if !fl.retry_failed && rs.st.failed_has key then
    ({ rs with skipped_count := rs.skipped_count + 1 }, [], none)
  else
    let exists_effs := if fl.skip_existing then [Eff.exists_check key fname] else []
    if fl.skip_existing && env.file_exists fname folder_id then
      ({ rs with st := rs.st.mark_done key, skipped_count := rs.skipped_count + 1 },
       exists_effs ++ [Eff.mark_done key], none)
    else
      let effs0 := exists_effs ++ [Eff.fetch_locator key]
      match env.locator_url key with
      | none =>
        ({ rs with st := rs.st.mark_failed key no_url_msg,
                   failed_count := rs.failed_count + 1 },
         effs0 ++ [Eff.mark_failed key no_url_msg], none)
      | some url =>
        match env.staging_error key with
        | some emsg =>
          let rs1 := { rs with st := rs.st.mark_failed key emsg,
                               failed_count := rs.failed_count + 1 }
          if rs.tmp_defined then
            (rs1, effs0 ++ [Eff.mark_failed key emsg] ++ save_check rs1, none)
          else
            (rs1, effs0 ++ [Eff.mark_failed key emsg], some name_error_msg)
        | none =>
          let rsT := { rs with tmp_defined := true }
          if !env.download_ok key then
            let rs1 := { rsT with st := rsT.st.mark_failed key download_failed_msg,
                                  failed_count := rsT.failed_count + 1 }
            (rs1,
             effs0 ++ [Eff.download key url, Eff.mark_failed key download_failed_msg] ++
               save_check rs1, none)
          else
            match env.upload_error key with
            | some umsg =>
              let rs1 := { rsT with st := rsT.st.mark_failed key umsg,
                                    failed_count := rsT.failed_count + 1 }
              (rs1,
               effs0 ++ [Eff.download key url, Eff.upload key fname,
                         Eff.mark_failed key umsg] ++ save_check rs1, none)
            | none =>
              let rs1 := { rsT with st := rsT.st.mark_done key,
                                    migrated_count := rsT.migrated_count + 1 }
              (rs1,
               effs0 ++ [Eff.download key url, Eff.upload key fname,
                         Eff.mark_done key] ++ save_check rs1, none)

/-- The loop over one album's images, stopping early when an exception
propagates out of the loop body. -/
def run_items (fl : Flags) (env : Env) (folder_id : String) :
    List Item → RunSt → RunSt × List Eff × Option String
  | [], rs => (rs, [], none)
  | it :: rest, rs =>
    let r := process_item fl env folder_id rs it
    match r.2.2 with
    | some e => (r.1, r.2.1, some e)
    | none =>
      let rr := run_items fl env folder_id rest r.1
      (rr.1, r.2.1 ++ rr.2.1, rr.2.2)

/-- The initial loop state built from the loaded ledger (counters start at
zero; `tmp_path` is unbound). -/
def init_run (st0 : MigrationState) : RunSt := ⟨st0, 0, 0, 0, false⟩

/-- Processing of one album in `migrate`: the dry-run branch (lines
453-459) prints a DONE/PENDING line per image and mutates nothing; the real
branch runs the item loop.  The final `state.save()` (line 527) is reached
only when no exception propagated. -/
def migrate_album (fl : Flags) (env : Env) (folder_id : String) (items : List Item)
    (st0 : MigrationState) : RunSt × List Eff × Option String :=
  if fl.dry_run then
    (init_run st0,
     items.map (fun it =>
       Eff.report it.file_name (if st0.is_done it.image_key then "DONE" else "PENDING")) ++
       [Eff.save_eff],
     none)
  else
    let r := run_items fl env folder_id items (init_run st0)
    match r.2.2 with
    | none => (r.1, r.2.1 ++ [Eff.save_eff], none)
    | some e => (r.1, r.2.1, some e)

/-- A whole run from the persisted ledger file: `MigrationState()` loads
the file (raising on malformed content before any processing), then the
engine runs. -/
def start_run (file : LedgerFileData) (fl : Flags) (env : Env) (folder_id : String)
    (items : List Item) : Except String (RunSt × List Eff × Option String) :=
  match load_state file with
  | Except.error e => Except.error e
  | Except.ok st0 => Except.ok (migrate_album fl env folder_id items st0)

/-- Is this effect a content fetch or upload call for item `k`
(`get_image_download_url`, `download_image`, `upload_file`)? -/
def is_transfer_eff (k : String) : Eff → Bool
  | Eff.fetch_locator k2 => k2 == k
  | Eff.download k2 _ => k2 == k
  | Eff.upload k2 _ => k2 == k
  | _ => false

/-- Is this effect a content fetch or upload call for any item? -/
def is_transfer_any : Eff → Bool
  | Eff.fetch_locator _ => true
  | Eff.download _ _ => true
  | Eff.upload _ _ => true
  | _ => false

/-- Is this effect a ledger mutation (`mark_done` or `mark_failed`)? -/
def is_mutation_eff : Eff → Bool
  | Eff.mark_done _ => true
  | Eff.mark_failed _ _ => true
  | _ => false

/-- Running count of ledger mutations not yet persisted: mutations add one,
a save resets the count. -/
def unsaved_step (n : Nat) : Eff → Nat
  | Eff.mark_done _ => n + 1
  | Eff.mark_failed _ _ => n + 1
  | Eff.save_eff => 0
  | _ => n

/-- Unsaved-mutation count after an effect sequence, starting from `n`
pending mutations. -/
def unsaved_after (n : Nat) (effs : List Eff) : Nat :=
  effs.foldl unsaved_step n

/-- The tag (image key) an effect is attributed to, if any. -/
def eff_tag : Eff → Option String
  | Eff.exists_check k _ => some k
  | Eff.fetch_locator k => some k
  | Eff.download k _ => some k
  | Eff.upload k _ => some k
  | Eff.mark_done k => some k
  | Eff.mark_failed k _ => some k
  | Eff.save_eff => none
  | Eff.report _ _ => none

/-! ## Helper lemmas -/

/-- Filtering out key `k` from the failed map leaves no entry keyed `k`. -/
theorem failed_filter_no_key (l : List (String × String)) (k : String) :
    (l.filter (fun p => !(p.fst == k))).any (fun p => p.fst == k) = false := by
  induction l with
  | nil => rfl
  | cons p rest ih =>
    by_cases hp : p.fst = k
    · simp [List.filter_cons, hp, ih]
    · simp [List.filter_cons, hp, ih]

/-- A list with no entry keyed `j` keeps that property under filtering. -/
theorem failed_filter_mono (l : List (String × String)) (j : String)
    (pr : (String × String) → Bool) (h : l.any (fun p => p.fst == j) = false) :
    (l.filter pr).any (fun p => p.fst == j) = false := by
  induction l with
  | nil => rfl
  | cons p rest ih =>
    simp only [List.any_cons, Bool.or_eq_false_iff] at h
    by_cases hp : pr p = true
    · simp [List.filter_cons, hp, h.1, ih h.2]
    · simp only [List.filter_cons, hp]
      simp [ih h.2]

/-- `contains` on a list of strings is decidable membership. -/
theorem contains_eq_decide_mem (l : List String) (a : String) :
    l.contains a = decide (a ∈ l) := List.elem_eq_mem a l

/-- `mark_done` never removes a key from the migrated set. -/
theorem is_done_mark_done (s : MigrationState) (k j : String)
    (h : s.is_done j = true) : (s.mark_done k).is_done j = true := by
  simp only [MigrationState.is_done, MigrationState.mark_done] at *
  simp only [contains_eq_decide_mem, decide_eq_true_eq] at *
  split
  · exact h
  · exact List.mem_append_left _ h

/-- `mark_failed` leaves the migrated set unchanged. -/
theorem is_done_mark_failed (s : MigrationState) (k err j : String) :
    (s.mark_failed k err).is_done j = s.is_done j := rfl

/-- Membership in the migrated set after `mark_done k` comes from prior
membership or from `j = k`. -/
theorem is_done_mark_done_cases (s : MigrationState) (k j : String)
    (h : (s.mark_done k).is_done j = true) : s.is_done j = true ∨ j = k := by
  simp only [MigrationState.is_done, MigrationState.mark_done] at *
  simp only [contains_eq_decide_mem, decide_eq_true_eq] at *
  revert h
  split
  · exact fun h => Or.inl h
  · simp only [List.mem_append, List.mem_singleton]
    rintro (h | h)
    · exact Or.inl h
    · exact Or.inr h

/-- `mark_done` preserves ledger disjointness. -/
theorem mark_done_disjoint (s : MigrationState) (k : String) (hd : s.disjoint) :
    (s.mark_done k).disjoint := by
  intro j hj
  rcases is_done_mark_done_cases s k j hj with h | rfl
  · have hfj := hd j h
    simp only [MigrationState.failed_has, MigrationState.mark_done] at *
    exact failed_filter_mono _ _ _ hfj
  · simp only [MigrationState.failed_has, MigrationState.mark_done]
    exact failed_filter_no_key _ _

/-- The dict-overwrite of `mark_failed` introduces no entry keyed `j ≠ k`. -/
theorem failed_update_no_key (l : List (String × String)) (k r j : String) (hjk : j ≠ k)
    (h : l.any (fun p => p.fst == j) = false) :
    (l.map (fun p => if p.fst == k then (k, r) else p)).any (fun p => p.fst == j) = false := by
  induction l with
  | nil => rfl
  | cons p rest ih =>
    simp only [List.any_cons, Bool.or_eq_false_iff] at h
    simp only [List.map_cons, List.any_cons, Bool.or_eq_false_iff]
    refine ⟨?_, ih h.2⟩
    by_cases hp : p.fst = k
    · simp only [hp, beq_self_eq_true, if_true]
      simp [beq_eq_false_iff_ne, Ne.symm hjk]
    · simp only [beq_iff_eq, if_neg hp]
      exact h.1

/-- The dict-insert of `mark_failed` introduces no entry keyed `j ≠ k`. -/
theorem failed_append_no_key (l : List (String × String)) (k r j : String) (hjk : j ≠ k)
    (h : l.any (fun p => p.fst == j) = false) :
    (l ++ [(k, r)]).any (fun p => p.fst == j) = false := by
  simp [List.any_append, h, beq_eq_false_iff_ne, Ne.symm hjk]

/-- `mark_failed` on a key not in the migrated set preserves disjointness. -/
theorem mark_failed_disjoint (s : MigrationState) (k r : String) (hd : s.disjoint)
    (hk : s.is_done k = false) : (s.mark_failed k r).disjoint := by
  intro j hj
  rw [is_done_mark_failed] at hj
  have hjk : j ≠ k := by
    intro h
    rw [h, hk] at hj
    exact Bool.noConfusion hj
  have hfj := hd j hj
  simp only [MigrationState.failed_has, MigrationState.mark_failed] at *
  split
  · exact failed_update_no_key _ k r j hjk hfj
  · exact failed_append_no_key _ k r j hjk hfj

/-! ## Claim C2 — ledger uniqueness invariant -/

/-- C2 counterexample: from the empty (disjoint) ledger, the two-operation
sequence `mark_done "a"; mark_failed "a" "x"` reaches a state in which the
id `"a"` is simultaneously in the migrated set and in the failed map —
`mark_failed` does not clear the migrated set, so the claimed invariant is
not preserved by every `mark_done`/`mark_failed` sequence. -/
theorem c2_ledger_overlap_counterexample :
    MigrationState.disjoint ⟨[], []⟩ ∧
    ((MigrationState.mark_done ⟨[], []⟩ "a").mark_failed "a" "x").is_done "a" = true ∧
    ((MigrationState.mark_done ⟨[], []⟩ "a").mark_failed "a" "x").failed_has "a" = true := by
  refine ⟨?_, by decide, by decide⟩
  intro j hj
  exact absurd hj (by simp [MigrationState.is_done])

/-- C2 (amended): `mark_done j` removes `j` from the failed map and
preserves ledger disjointness; `mark_failed k r` preserves disjointness
provided `k` is not in the migrated set.  (The original claim fails because
`mark_failed` does not remove its key from the migrated set, so applying it
to an id already marked Done breaks disjointness; see the counterexample.) -/
theorem c2_ledger_uniqueness_amended (s : MigrationState) (k j r : String)
    (hd : s.disjoint) (hk : s.is_done k = false) :
    ((s.mark_done j).failed_has j = false) ∧
    (s.mark_done j).disjoint ∧
    (s.mark_failed k r).disjoint := by
  refine ⟨?_, mark_done_disjoint s j hd, mark_failed_disjoint s k r hd hk⟩
  simp only [MigrationState.failed_has, MigrationState.mark_done]
  exact failed_filter_no_key _ _

/-- C2 witness: the amended theorem applied to the concrete ledger with
`"m"` migrated and `"f"` failed, marking `"f"` done and `"x"` failed. -/
theorem c2_ledger_uniqueness_witness :
    ((MigrationState.mark_done ⟨["m"], [("f", "e")]⟩ "f").failed_has "f" = false) ∧
    (MigrationState.mark_failed ⟨["m"], [("f", "e")]⟩ "x" "r").failed_has "x" = true := by
  have h := c2_ledger_uniqueness_amended ⟨["m"], [("f", "e")]⟩ "x" "f" "r"
    (by
      intro j hj
      simp only [MigrationState.is_done, contains_eq_decide_mem, decide_eq_true_eq,
        List.mem_singleton] at hj
      subst hj
      decide)
    (by decide)
  exact ⟨h.1, by decide⟩

/-! ## Claim C6 — atomicity of the ledger save -/

/-- C6 counterexample: `save` truncates the ledger file in place before
writing (`open(state_file, "w")` then `json.dump`).  Interrupting the save
of the empty state over the previously saved content of `{migrated: [a]}`
right after the truncation leaves an empty file that is neither the
previous content nor the new serialized mapping — a torn write, so the
save is not atomic. -/
theorem c6_save_not_atomic_counterexample :
    disk_after (serialize_state ⟨["a"], []⟩) (save_ops ⟨[], []⟩) 1 = "" ∧
    ("" : String) ≠ serialize_state ⟨["a"], []⟩ ∧
    ("" : String) ≠ serialize_state ⟨[], []⟩ := by
  refine ⟨rfl, by decide, by decide⟩

/-- C6 (amended): `save` overwrites the ledger file in place, truncating it
and then writing the new serialization; an uninterrupted save leaves
exactly the complete new serialized mapping on disk, but an interruption
between the truncation and the write leaves an empty (torn) file, so the
overwrite is not atomic. -/
theorem c6_save_overwrite_amended (old : String) (s : MigrationState) :
    disk_after old (save_ops s) 2 = serialize_state s ∧
    disk_after old (save_ops s) 1 = "" := by
  constructor
  · show ("" : String) ++ serialize_state s = serialize_state s
    exact (String.ext (List.nil_append _))
  · rfl

/-! ## Claim C7 — ledger load semantics -/

/-- C7: loading an absent ledger file yields the empty ledger and is not an
error; a present-but-unparsable file makes the load raise a fatal error
(`json.load` raises and nothing catches it), so the whole run aborts with
that error before any processing or ledger mutation, and the ledger is
never silently reset to empty. -/
theorem c7_load_semantics :
    (load_state LedgerFileData.absent = Except.ok ⟨[], []⟩) ∧
    (∀ (fl : Flags) (env : Env) (fid : String) (items : List Item),
      start_run LedgerFileData.malformed fl env fid items =
        Except.error state_corruption_msg) := by
  exact ⟨rfl, fun _ _ _ _ => rfl⟩

/-! ## Claim C10 — query-string construction -/

/-- Escaping is the identity on quote-free character lists. -/
theorem escape_chars_eq_self (l : List Char) (h : l.contains squote_char = false) :
    escape_chars l = l := by
  induction l with
  | nil => rfl
  | cons ch rest ih =>
    simp only [List.contains_cons, Bool.or_eq_false_iff, beq_eq_false_iff_ne] at h
    simp only [escape_chars]
    rw [if_neg (fun hc => h.1 hc.symm), ih h.2]

/-- Escaping is the identity on quote-free strings. -/
theorem escape_sq_eq_self (s : String) (h : s.data.contains squote_char = false) :
    escape_sq s = s := by
  simp only [escape_sq, escape_chars_eq_self s.data h]

/-- C10: the search filters of `file_exists` and `get_or_create_folder`
interpolate the raw name between single-quote delimiters with no escaping.
For quote-free names (and parent/folder ids) the constructed string equals
the properly escaped exact-name filter; for a name containing a single
quote it differs from that filter, and the construction is not even
injective: two different (name, folder) pairs produce the identical query
string, so the constructed query is not an exact-name filter for such
names. -/
theorem c10_query_construction :
    (∀ filename folder_id : String,
      filename.data.contains squote_char = false →
      folder_id.data.contains squote_char = false →
      file_exists_query filename folder_id = escaped_file_exists_query filename folder_id) ∧
    (∀ name : String, name.data.contains squote_char = false →
      folder_search_query name none = escaped_folder_search_query name none) ∧
    (∀ name p : String,
      name.data.contains squote_char = false →
      p.data.contains squote_char = false →
      folder_search_query name (some p) = escaped_folder_search_query name (some p)) ∧
    (file_exists_query ("it" ++ squote ++ "s") "F" ≠
      escaped_file_exists_query ("it" ++ squote ++ "s") "F") ∧
    (file_exists_query ("a" ++ squote ++ " and " ++ squote ++ "b") "c" =
      file_exists_query "a" ("b" ++ squote ++ " and " ++ squote ++ "c")) := by
  refine ⟨?_, ?_, ?_, by decide, by decide⟩
  · intro filename folder_id h1 h2
    simp only [escaped_file_exists_query, escape_sq_eq_self _ h1, escape_sq_eq_self _ h2,
      file_exists_query]
  · intro name h1
    simp only [escaped_folder_search_query, escape_sq_eq_self _ h1, folder_search_query]
  · intro name p h1 h2
    simp only [escaped_folder_search_query, escape_sq_eq_self _ h1, escape_sq_eq_self _ h2,
      folder_search_query]

/-- C10 witness: the quote-free case applied to a concrete filename and
folder id. -/
theorem c10_query_construction_witness :
    file_exists_query "photo.jpg" "F" = escaped_file_exists_query "photo.jpg" "F" :=
  c10_query_construction.1 "photo.jpg" "F" (by decide) (by decide)

/-! ## Claim C3 — pagination completeness -/

/-- The page served at offset `start` has length `min P (L.length - (start - 1))`. -/
theorem page_at_length {α : Type} (L : List α) (P start : Nat) :
    (page_at L P start).length = min P (L.length - (start - 1)) := by
  simp [page_at]

/-- Invariant of the pagination loop: with the accumulator holding exactly
the first `start - 1` items and enough fuel, the loop returns the whole
listing. -/
theorem paginate_loop_complete {α : Type} (L : List α) (P : Nat) (hP : 0 < P) :
    ∀ (fuel start : Nat), L.length + 1 ≤ fuel + start → 1 ≤ start →
      paginate_loop L P fuel start (L.take (start - 1)) = L := by
  intro fuel
  induction fuel with
  | zero =>
    intro start hfs hs
    simp only [paginate_loop]
    exact List.take_of_length_le (by omega)
  | succ fuel ih =>
    intro start hfs hs
    have hlen := page_at_length L P start
    simp only [paginate_loop]
    by_cases h0 : (page_at L P start).length = 0
    · rw [if_pos h0]
      exact List.take_of_length_le (by omega)
    · rw [if_neg h0]
      have hacc : L.take (start - 1) ++ page_at L P start = L.take ((start - 1) + P) := by
        rw [List.take_add]
        rfl
      by_cases hstop : start + (page_at L P start).length > L.length
      · rw [if_pos hstop, hacc]
        exact List.take_of_length_le (by omega)
      · rw [if_neg hstop, hacc]
        have hfull : (page_at L P start).length = P := by omega
        have harg : (start - 1) + P = (start + (page_at L P start).length) - 1 := by omega
        rw [harg]
        exact ih (start + (page_at L P start).length) (by omega) (by omega)

/-- C3: for a collection of `N` items served by the provider in pages of
size `P` with `P < N` and `N` not a multiple of `P` (each page reporting
`Total = N` and returning its actual slice), `get_album_images` returns
exactly the full listing — all `N` items, each exactly once, in listing
order — and hence a duplicate-free result whenever the listing is
duplicate-free. -/
theorem c3_pagination_completeness {α : Type} (L : List α) (P : Nat)
    (hP : 0 < P) (hPN : P < L.length) (hmod : L.length % P ≠ 0) :
    get_album_images L P = L ∧
    (get_album_images L P).length = L.length ∧
    (L.Nodup → (get_album_images L P).Nodup) := by
  have h : get_album_images L P = L := by
    have := paginate_loop_complete L P hP (L.length + 1) 1 (by omega) (by omega)
    simpa [get_album_images] using this
  exact ⟨h, by rw [h], fun hnd => by rw [h]; exact hnd⟩

/-- C3 witness: seven items served in pages of three (7 not a multiple of
3) are all returned, in order. -/
theorem c3_pagination_completeness_witness :
    get_album_images [10, 20, 30, 40, 50, 60, 70] 3 = [10, 20, 30, 40, 50, 60, 70] :=
  (c3_pagination_completeness [10, 20, 30, 40, 50, 60, 70] 3
    (by decide) (by decide) (by decide)).1

/-! ## Claim C1 — resume correctness -/

/-- A transfer effect for `k` is tagged `k`. -/
theorem is_transfer_eff_tag (k : String) (e : Eff) (h : is_transfer_eff k e = true) :
    eff_tag e = some k := by
  cases e <;> simp [is_transfer_eff] at h <;> simp [eff_tag, h]

/-- Every effect emitted by one loop iteration is either a save or is
tagged with the processed item's image key. -/
theorem process_item_effect_tags (fl : Flags) (env : Env) (fid : String) (rs : RunSt)
    (it : Item) :
    ∀ e ∈ (process_item fl env fid rs it).2.1,
      e = Eff.save_eff ∨ eff_tag e = some it.image_key := by
  have hsc : ∀ rs1 : RunSt, ∀ e ∈ save_check rs1, e = Eff.save_eff := by
    intro rs1 e he
    simp only [save_check] at he
    split at he
    · simpa using he
    · exact absurd he (List.not_mem_nil e)
  have hex : ∀ e ∈ (if fl.skip_existing then [Eff.exists_check it.image_key it.file_name] else []),
      eff_tag e = some it.image_key := by
    intro e he
    split at he
    · simp only [List.mem_singleton] at he
      subst he
      rfl
    · exact absurd he (List.not_mem_nil e)
  simp only [process_item]
  repeat' split
  all_goals simp only [List.append_assoc, List.singleton_append, List.cons_append,
    List.forall_mem_append, List.forall_mem_cons]
  all_goals repeat' apply And.intro
  all_goals first
    | exact List.forall_mem_nil _
    | exact Or.inr rfl
    | exact fun e he => Or.inr (hex e he)
    | exact fun e he => Or.inl (hsc _ e he)

/-- Whatever branch an iteration takes, an id in the migrated set stays in
the migrated set (`mark_done` only adds; `mark_failed` leaves it alone). -/
theorem process_item_is_done_mono (fl : Flags) (env : Env) (fid : String) (rs : RunSt)
    (it : Item) (k : String) (hk : rs.st.is_done k = true) :
    (process_item fl env fid rs it).1.st.is_done k = true := by
  simp only [process_item]
  repeat' split
  all_goals first
    | exact hk
    | exact is_done_mark_done _ _ _ hk

/-- An item whose key is already Done is skipped outright (no effects, no
state change other than the skip counter) when `retry_failed` is off. -/
theorem process_item_skips_done (fl : Flags) (env : Env) (fid : String) (rs : RunSt)
    (it : Item) (hrf : fl.retry_failed = false)
    (hk : rs.st.is_done it.image_key = true) :
    process_item fl env fid rs it =
      ({ rs with skipped_count := rs.skipped_count + 1 }, [], none) := by
  simp [process_item, hk, hrf]

/-- One iteration emits no fetch/download/upload effect for an id already
Done when `retry_failed` is off. -/
theorem process_item_no_transfer_done (fl : Flags) (env : Env) (fid : String) (rs : RunSt)
    (it : Item) (k : String) (hrf : fl.retry_failed = false)
    (hk : rs.st.is_done k = true) :
    ∀ e ∈ (process_item fl env fid rs it).2.1, is_transfer_eff k e = false := by
  intro e he
  by_cases hkey : it.image_key = k
  · rw [process_item_skips_done fl env fid rs it hrf (by rw [hkey]; exact hk)] at he
    exact absurd he (List.not_mem_nil e)
  · rcases process_item_effect_tags fl env fid rs it e he with rfl | htag
    · rfl
    · cases htr : is_transfer_eff k e
      · rfl
      · have h2 := is_transfer_eff_tag k e htr
        rw [htag] at h2
        exact absurd (Option.some.inj h2) hkey

/-- The whole item loop emits no fetch/download/upload effect for an id
already Done when `retry_failed` is off. -/
theorem run_items_no_transfer_done (fl : Flags) (env : Env) (fid k : String)
    (hrf : fl.retry_failed = false) :
    ∀ (items : List Item) (rs : RunSt), rs.st.is_done k = true →
      ∀ e ∈ (run_items fl env fid items rs).2.1, is_transfer_eff k e = false := by
  intro items
  induction items with
  | nil =>
    intro rs _ e he
    exact absurd he (List.not_mem_nil e)
  | cons it rest ih =>
    intro rs hk e he
    simp only [run_items] at he
    split at he
    · exact process_item_no_transfer_done fl env fid rs it k hrf hk e he
    · rcases List.mem_append.mp he with h1 | h1
      · exact process_item_no_transfer_done fl env fid rs it k hrf hk e h1
      · exact ih _ (process_item_is_done_mono fl env fid rs it k hk) e h1

/-- C1 counterexample: with `retry_failed = true` the loop's skip guard
`state.is_done(key) and not retry_failed` is bypassed, so an item whose id
is recorded Done in the loaded ledger is fetched and uploaded again (here
the destination existence check reports the file absent).  The claim as
stated — no fetch/upload for a Done item regardless of run flags — is
therefore false. -/
theorem c1_done_item_retransferred_counterexample :
    (MigrationState.is_done ⟨["a"], []⟩ "a" = true) ∧
    Eff.download "a" "u" ∈
      (migrate_album ⟨false, true, true⟩
        ⟨fun _ _ => false, fun _ => some "u", fun _ => none, fun _ => true, fun _ => none⟩
        "fid" [⟨"a", "p.jpg"⟩] ⟨["a"], []⟩).2.1 ∧
    Eff.upload "a" "p.jpg" ∈
      (migrate_album ⟨false, true, true⟩
        ⟨fun _ _ => false, fun _ => some "u", fun _ => none, fun _ => true, fun _ => none⟩
        "fid" [⟨"a", "p.jpg"⟩] ⟨["a"], []⟩).2.1 := by
  refine ⟨by decide, ?_, ?_⟩ <;> decide

/-- C1 (amended): for every item whose id is recorded as Done in the loaded
ledger, a run with `retry_failed = false` never invokes the content fetch
(`get_image_download_url`/`download_image`) or the upload (`upload_file`)
for that item, regardless of the destination's file-existence state and of
the other run flags.  (The original claim also quantified over
`retry_failed = true`, where the code re-processes Done items; see the
counterexample.) -/
theorem c1_resume_correctness_amended (dr se : Bool) (env : Env) (fid : String)
    (items : List Item) (st0 : MigrationState) (k : String)
    (hk : st0.is_done k = true) :
    ∀ e ∈ (migrate_album ⟨dr, se, false⟩ env fid items st0).2.1,
      is_transfer_eff k e = false := by
  intro e he
  simp only [migrate_album] at he
  by_cases hdr : dr = true
  · rw [if_pos (by simp [hdr])] at he
    rcases List.mem_append.mp he with h1 | h1
    · obtain ⟨it, _, rfl⟩ := List.mem_map.mp h1
      rfl
    · simp only [List.mem_singleton] at h1
      subst h1
      rfl
  · rw [if_neg (by simp [hdr])] at he
    split at he
    · rcases List.mem_append.mp he with h1 | h1
      · exact run_items_no_transfer_done ⟨dr, se, false⟩ env fid k rfl items (init_run st0) hk e h1
      · simp only [List.mem_singleton] at h1
        subst h1
        rfl
    · exact run_items_no_transfer_done ⟨dr, se, false⟩ env fid k rfl items (init_run st0) hk e he

/-- C1 witness: the amended theorem applied to a concrete run (ledger has
`"a"` Done, destination reports the file absent, one other item in the
album); the final save effect of that run carries no transfer for `"a"`. -/
theorem c1_resume_correctness_witness : is_transfer_eff "a" Eff.save_eff = false :=
  c1_resume_correctness_amended false true
    ⟨fun _ _ => false, fun _ => some "u", fun _ => none, fun _ => true, fun _ => none⟩
    "fid" [⟨"b", "b.jpg"⟩] ⟨["a"], []⟩ "a" (by decide) Eff.save_eff (by decide)

/-! ## Claim C8 — dry-run purity -/

/-- C8: with `dry_run = true` the engine issues zero content-fetch and zero
upload calls and performs zero ledger mutations — the loaded ledger is
returned unchanged and no effect in the trace is a fetch/download/upload or
a mark — producing only the per-item DONE/PENDING status report (followed
by the unconditional end-of-run save of the unchanged state). -/
theorem c8_dry_run_purity (se rf : Bool) (env : Env) (fid : String) (items : List Item)
    (st0 : MigrationState) :
    (migrate_album ⟨true, se, rf⟩ env fid items st0).1.st = st0 ∧
    (migrate_album ⟨true, se, rf⟩ env fid items st0).2.2 = none ∧
    (∀ e ∈ (migrate_album ⟨true, se, rf⟩ env fid items st0).2.1,
      is_transfer_any e = false ∧ is_mutation_eff e = false) ∧
    (migrate_album ⟨true, se, rf⟩ env fid items st0).2.1 =
      items.map (fun it => Eff.report it.file_name
        (if st0.is_done it.image_key then "DONE" else "PENDING")) ++ [Eff.save_eff] := by
  refine ⟨rfl, rfl, ?_, rfl⟩
  intro e he
  simp only [migrate_album, if_pos] at he
  rcases List.mem_append.mp he with h1 | h1
  · obtain ⟨it, _, rfl⟩ := List.mem_map.mp h1
    exact ⟨rfl, rfl⟩
  · simp only [List.mem_singleton] at h1
    subst h1
    exact ⟨rfl, rfl⟩

/-! ## Claim C5 — per-item error containment -/

/-- C5: evaluation of the CLI item loop at the failing input.  The first
processed item reaches the transfer stage and its temporary-file creation
(`tempfile.NamedTemporaryFile`) raises (message `"disk full"`).  The
`except` block records the Failed entry, but the `finally` block then
evaluates `tmp_path` — a name not yet bound, because no earlier item
assigned it — and raises `NameError`, which no enclosing handler catches:
the exception propagates out of the item loop, the run aborts, and the
end-of-run save is never reached.  (The GUI variant initialises
`tmp_path = None` before its `try` and is not affected.) -/
theorem c5_staging_failure_name_error :
    ((migrate_album ⟨false, false, false⟩
        ⟨fun _ _ => false, fun _ => some "u", fun _ => some "disk full",
         fun _ => true, fun _ => none⟩
        "fid" [⟨"a", "a.jpg"⟩] ⟨[], []⟩).2.2 = some name_error_msg) ∧
    Eff.mark_failed "a" "disk full" ∈
      (migrate_album ⟨false, false, false⟩
        ⟨fun _ _ => false, fun _ => some "u", fun _ => some "disk full",
         fun _ => true, fun _ => none⟩
        "fid" [⟨"a", "a.jpg"⟩] ⟨[], []⟩).2.1 ∧
    Eff.save_eff ∉
      (migrate_album ⟨false, false, false⟩
        ⟨fun _ _ => false, fun _ => some "u", fun _ => some "disk full",
         fun _ => true, fun _ => none⟩
        "fid" [⟨"a", "a.jpg"⟩] ⟨[], []⟩).2.1 := by
  refine ⟨rfl, by decide, by decide⟩

/-! ## Claim C4 — crash-window bound -/

/-- C4 counterexample: ten consecutive items that already exist at the
destination are each marked Done through the `skip_existing` shortcut,
whose `continue` bypasses the periodic-save check (which moreover counts
only `migrated_count + failed_count`, not these skips).  After the tenth
processed item there are ten unpersisted ledger mutations — exceeding the
claimed bound K−1 = 9 — and the loop trace contains no save at all. -/
theorem c4_crash_window_counterexample :
    (unsaved_after 0
      (run_items ⟨false, true, false⟩
        ⟨fun _ _ => true, fun _ => some "u", fun _ => none, fun _ => true, fun _ => none⟩
        "fid"
        [⟨"a", "a"⟩, ⟨"b", "b"⟩, ⟨"c", "c"⟩, ⟨"d", "d"⟩, ⟨"e", "e"⟩,
         ⟨"f", "f"⟩, ⟨"g", "g"⟩, ⟨"h", "h"⟩, ⟨"i", "i"⟩, ⟨"j", "j"⟩]
        (init_run ⟨[], []⟩)).2.1 = 10) ∧
    Eff.save_eff ∉
      (run_items ⟨false, true, false⟩
        ⟨fun _ _ => true, fun _ => some "u", fun _ => none, fun _ => true, fun _ => none⟩
        "fid"
        [⟨"a", "a"⟩, ⟨"b", "b"⟩, ⟨"c", "c"⟩, ⟨"d", "d"⟩, ⟨"e", "e"⟩,
         ⟨"f", "f"⟩, ⟨"g", "g"⟩, ⟨"h", "h"⟩, ⟨"i", "i"⟩, ⟨"j", "j"⟩]
        (init_run ⟨[], []⟩)).2.1 := by
  exact ⟨by decide, by decide⟩

/-- One iteration through the download/upload path (item not skipped,
locator resolvable, staging succeeds) adds exactly one ledger mutation and
leaves the unsaved count equal to `(migrated + failed) % 10`. -/
theorem c4_process_item_step (env : Env) (fid : String) (rs : RunSt) (it : Item)
    (hloc : (env.locator_url it.image_key).isSome = true)
    (hst : env.staging_error it.image_key = none) :
    (process_item ⟨false, false, true⟩ env fid rs it).2.2 = none ∧
    ((process_item ⟨false, false, true⟩ env fid rs it).1.migrated_count +
      (process_item ⟨false, false, true⟩ env fid rs it).1.failed_count)
      = rs.migrated_count + rs.failed_count + 1 ∧
    unsaved_after ((rs.migrated_count + rs.failed_count) % 10)
        (process_item ⟨false, false, true⟩ env fid rs it).2.1 =
      ((process_item ⟨false, false, true⟩ env fid rs it).1.migrated_count +
        (process_item ⟨false, false, true⟩ env fid rs it).1.failed_count) % 10 := by
  rcases hurl : env.locator_url it.image_key with _ | url
  · rw [hurl] at hloc
    exact absurd hloc (by simp)
  · cases hdl : env.download_ok it.image_key
    · simp only [process_item, hurl, hst, hdl]
      simp [unsaved_after, unsaved_step, save_check]
      split
      · rename_i hmod
        simp only [List.foldl_cons, List.foldl_nil, unsaved_step]
        omega
      · rename_i hmod
        simp only [List.foldl_nil]
        omega
    · rcases hup : env.upload_error it.image_key with _ | umsg
      · simp only [process_item, hurl, hst, hdl, hup]
        simp [unsaved_after, unsaved_step, save_check]
        split
        · rename_i hmod
          simp only [List.foldl_cons, List.foldl_nil, unsaved_step]
          omega
        · rename_i hmod
          simp only [List.foldl_nil]
          omega
      · simp only [process_item, hurl, hst, hdl, hup]
        simp [unsaved_after, unsaved_step, save_check]
        split
        · rename_i hmod
          simp only [List.foldl_cons, List.foldl_nil, unsaved_step]
          omega
        · rename_i hmod
          simp only [List.foldl_nil]
          omega

/-- Loop invariant for runs in which every item reaches the
download/upload path: no exception propagates and the unsaved-mutation
count tracks `(migrated + failed) % 10`. -/
theorem c4_run_items_aux (env : Env) (fid : String) :
    ∀ (items : List Item) (rs : RunSt),
      (∀ it ∈ items, (env.locator_url it.image_key).isSome = true ∧
        env.staging_error it.image_key = none) →
      (run_items ⟨false, false, true⟩ env fid items rs).2.2 = none ∧
      unsaved_after ((rs.migrated_count + rs.failed_count) % 10)
          (run_items ⟨false, false, true⟩ env fid items rs).2.1 =
        ((run_items ⟨false, false, true⟩ env fid items rs).1.migrated_count +
          (run_items ⟨false, false, true⟩ env fid items rs).1.failed_count) % 10 := by
  intro items
  induction items with
  | nil =>
    intro rs _
    exact ⟨rfl, rfl⟩
  | cons it rest ih =>
    intro rs hgood
    obtain ⟨hloc, hst⟩ := hgood it (List.mem_cons_self it rest)
    have hgood2 : ∀ it2 ∈ rest, (env.locator_url it2.image_key).isSome = true ∧
        env.staging_error it2.image_key = none :=
      fun it2 h2 => hgood it2 (List.mem_cons_of_mem it h2)
    obtain ⟨hexc, hcnt, hstep⟩ := c4_process_item_step env fid rs it hloc hst
    obtain ⟨ihe, ihu⟩ := ih (process_item ⟨false, false, true⟩ env fid rs it).1 hgood2
    simp only [run_items, hexc]
    refine ⟨ihe, ?_⟩
    rw [unsaved_after, List.foldl_append]
    rw [unsaved_after] at hstep ihu
    rw [hstep, hcnt]
    rw [hcnt] at ihu
    exact ihu

/-- Composition of the item loop over a split of the item list, when the
first part raises no exception. -/
theorem run_items_append_of_no_exc (fl : Flags) (env : Env) (fid : String) :
    ∀ (pre suf : List Item) (rs : RunSt),
      (run_items fl env fid pre rs).2.2 = none →
      run_items fl env fid (pre ++ suf) rs =
        ((run_items fl env fid suf (run_items fl env fid pre rs).1).1,
         (run_items fl env fid pre rs).2.1 ++
           (run_items fl env fid suf (run_items fl env fid pre rs).1).2.1,
         (run_items fl env fid suf (run_items fl env fid pre rs).1).2.2) := by
  intro pre
  induction pre with
  | nil =>
    intro suf rs _
    simp [run_items]
  | cons it rest ih =>
    intro suf rs hexc
    rcases hpi : (process_item fl env fid rs it).2.2 with _ | msg
    · simp only [run_items, hpi, List.cons_append, List.append_eq] at hexc ⊢
      simp only [ih suf (process_item fl env fid rs it).1 hexc, List.append_assoc]
    · simp only [run_items, hpi] at hexc
      exact Option.noConfusion hexc

/-- C4 (amended): the engine's periodic save is reached only by items that
went through the download/upload path, where it fires whenever
`migrated_count + failed_count` is a multiple of K = 10.  Hence for every
run prefix in which every item reaches that path (not skipped via ledger or
destination existence, locator resolvable, staging succeeds), the number of
ledger mutations not yet persisted after the prefix is
`(migrated + failed) % 10 ≤ K − 1 = 9`, and the full run's trace passes
through exactly that boundary.  The original claim's unconditional bound is
false: mutations made on the destination-existence skip path and on the
locator-failure path bypass the periodic-save check entirely (their loop
iterations `continue` before it), so their unsaved count is unbounded (see
the counterexample). -/
theorem c4_crash_window_amended (env : Env) (fid : String) (pre suf : List Item)
    (st0 : MigrationState)
    (hgood : ∀ it ∈ pre, (env.locator_url it.image_key).isSome = true ∧
      env.staging_error it.image_key = none) :
    unsaved_after 0 (run_items ⟨false, false, true⟩ env fid pre (init_run st0)).2.1 ≤ 9 ∧
    (run_items ⟨false, false, true⟩ env fid (pre ++ suf) (init_run st0)).2.1 =
      (run_items ⟨false, false, true⟩ env fid pre (init_run st0)).2.1 ++
        (run_items ⟨false, false, true⟩ env fid suf
          (run_items ⟨false, false, true⟩ env fid pre (init_run st0)).1).2.1 := by
  obtain ⟨hexc, hinv⟩ := c4_run_items_aux env fid pre (init_run st0) hgood
  constructor
  · have h0 : (((init_run st0).migrated_count + (init_run st0).failed_count) % 10) = 0 := rfl
    rw [h0] at hinv
    rw [hinv]
    omega
  · rw [run_items_append_of_no_exc ⟨false, false, true⟩ env fid pre suf (init_run st0) hexc]

/-- C4 witness: the amended bound at a concrete two-item prefix of a
three-item run. -/
theorem c4_crash_window_witness :
    unsaved_after 0
      (run_items ⟨false, false, true⟩
        ⟨fun _ _ => false, fun _ => some "u", fun _ => none, fun _ => true, fun _ => none⟩
        "fid" [⟨"a", "a.jpg"⟩, ⟨"b", "b.jpg"⟩] (init_run ⟨[], []⟩)).2.1 ≤ 9 :=
  (c4_crash_window_amended
    ⟨fun _ _ => false, fun _ => some "u", fun _ => none, fun _ => true, fun _ => none⟩
    "fid" [⟨"a", "a.jpg"⟩, ⟨"b", "b.jpg"⟩] [⟨"c", "c.jpg"⟩] ⟨[], []⟩ (by decide)).1

/-! ## Claim C9 — folder ensure idempotence -/

/-- `get_or_create_folder` never removes cache entries: a key present in
the cache is still present afterwards. -/
theorem get_or_create_cache_mono (d : Drive) (c : FolderCache) (n : String)
    (p : Option String) (key : String) (h : (c.lookup key).isSome = true) :
    (((get_or_create_folder d c n p).2.2.1).lookup key).isSome = true := by
  simp only [get_or_create_folder]
  split
  · exact h
  · split
    · simp only [List.lookup]
      split
      · rfl
      · exact h
    · simp only [List.lookup]
      split
      · rfl
      · exact h

/-- Once a key is cached, the rest of the run creates no folder for it. -/
theorem creates_for_cached (key : String) :
    ∀ (reqs : List (String × Option String)) (d : Drive) (c : FolderCache),
      (c.lookup key).isSome = true →
      creates_for key (run_folder_requests reqs d c).2.2 = 0 := by
  intro reqs
  induction reqs with
  | nil => intro d c _; rfl
  | cons np rest ih =>
    obtain ⟨n, p⟩ := np
    intro d c h
    have hmono := get_or_create_cache_mono d c n p key h
    simp only [run_folder_requests, creates_for, List.countP_append] at *
    have hcall : List.countP
        (fun e => match e with
          | FolderEff.fcreate n2 p2 _ => cache_key n2 p2 == key
          | _ => false) (get_or_create_folder d c n p).2.2.2 = 0 := by
      simp only [get_or_create_folder]
      split
      · rfl
      · split
        · rfl
        · rename_i x1 hlookup x2 hfind
          have hne : ¬(cache_key n p == key) = true := by
            intro hb
            rw [beq_iff_eq] at hb
            rw [hb] at hlookup
            rw [hlookup] at h
            exact Bool.noConfusion h
          simp [List.countP_cons, hne]
    rw [hcall, ih _ _ hmono]

/-- Within one run, at most one folder creation happens per cache key. -/
theorem creates_for_at_most_one (key : String) :
    ∀ (reqs : List (String × Option String)) (d : Drive) (c : FolderCache),
      creates_for key (run_folder_requests reqs d c).2.2 ≤ 1 := by
  intro reqs
  induction reqs with
  | nil => intro d c; exact Nat.zero_le 1
  | cons np rest ih =>
    obtain ⟨n, p⟩ := np
    intro d c
    simp only [run_folder_requests, creates_for, List.countP_append] at *
    simp only [get_or_create_folder]
    split
    · simpa using ih d c
    · split
      · rename_i x1 hlookup f hfind
        simp only [List.countP_cons, List.countP_nil]
        simpa using ih d ((cache_key n p, f.fid) :: c)
      · rename_i x1 hlookup x2 hfind
        by_cases hk : cache_key n p = key
        · have hcached : creates_for key
              (run_folder_requests rest
                ⟨d.folders ++ [⟨fresh_folder_id d, n, p, false⟩], d.next_id + 1⟩
                ((cache_key n p, fresh_folder_id d) :: c)).2.2 = 0 := by
            apply creates_for_cached
            simp only [List.lookup, hk]
            split
            · rfl
            · rename_i hne
              simp at hne
          rw [creates_for] at hcached
          rw [hcached]
          simp [List.countP_cons, hk]
        · have hne : ¬(cache_key n p == key) = true := by
            intro hb
            exact hk (beq_iff_eq.mp hb)
          simp only [List.countP_cons, List.countP_nil, if_neg hne]
          simpa using ih ⟨d.folders ++ [⟨fresh_folder_id d, n, p, false⟩], d.next_id + 1⟩
            ((cache_key n p, fresh_folder_id d) :: c)

/-- C9: `get_or_create_folder` first consults the in-run cache (a hit makes
no destination call and changes nothing); on a miss it queries the
destination before creating — returning and caching the id of an existing
non-trashed folder of that exact name under that parent when the query
finds one, and creating (then caching) the folder only when the query finds
none; any one run creates at most one folder per (parent, name) cache key;
and a second run with a fresh cache over the unchanged hierarchy
`"SmugMug Migration"/["Family", "Vacation", "2024"]` performs zero
creations, leaves the destination store unchanged, resolves the same final
folder id, and the store holds exactly one folder per segment of the
chain. -/
theorem c9_folder_ensure_idempotence :
    (∀ (d : Drive) (c : FolderCache) (n : String) (p : Option String) (fid : String),
      c.lookup (cache_key n p) = some fid →
      get_or_create_folder d c n p = (fid, d, c, [])) ∧
    (∀ (d : Drive) (c : FolderCache) (n : String) (p : Option String) (f : Folder),
      c.lookup (cache_key n p) = none → folder_query d n p = some f →
      get_or_create_folder d c n p =
        (f.fid, d, (cache_key n p, f.fid) :: c, [FolderEff.fquery n p])) ∧
    (∀ (d : Drive) (c : FolderCache) (n : String) (p : Option String),
      c.lookup (cache_key n p) = none → folder_query d n p = none →
      get_or_create_folder d c n p =
        (fresh_folder_id d,
         ⟨d.folders ++ [⟨fresh_folder_id d, n, p, false⟩], d.next_id + 1⟩,
         (cache_key n p, fresh_folder_id d) :: c,
         [FolderEff.fquery n p, FolderEff.fcreate n p (fresh_folder_id d)])) ∧
    (∀ (reqs : List (String × Option String)) (d : Drive) (c : FolderCache) (key : String),
      creates_for key (run_folder_requests reqs d c).2.2 ≤ 1) ∧
    (let r1 := ensure_path ⟨[], 0⟩ [] "SmugMug Migration" ["Family", "Vacation", "2024"]
     let r2 := ensure_path r1.2.1 [] "SmugMug Migration" ["Family", "Vacation", "2024"]
     r2.2.2.2.countP (fun e => match e with
       | FolderEff.fcreate _ _ _ => true
       | _ => false) = 0 ∧
     r2.1 = r1.1 ∧
     r2.2.1 = r1.2.1 ∧
     r2.2.1.folders.countP (fun f => f.name == "SmugMug Migration") = 1 ∧
     r2.2.1.folders.countP (fun f => f.name == "Family") = 1 ∧
     r2.2.1.folders.countP (fun f => f.name == "Vacation") = 1 ∧
     r2.2.1.folders.countP (fun f => f.name == "2024") = 1) := by
  refine ⟨?_, ?_, ?_, fun reqs d c key => creates_for_at_most_one key reqs d c, by decide⟩
  · intro d c n p fid h
    simp [get_or_create_folder, h]
  · intro d c n p f h1 h2
    simp [get_or_create_folder, h1, h2]
  · intro d c n p h1 h2
    simp [get_or_create_folder, h1, h2]

/-- C9 witness: a cache hit returns the cached id with no destination call,
at a concrete cache. -/
theorem c9_folder_ensure_witness :
    get_or_create_folder ⟨[], 0⟩ [("root/A", "f1")] "A" none = ("f1", ⟨[], 0⟩, [("root/A", "f1")], []) :=
  c9_folder_ensure_idempotence.1 ⟨[], 0⟩ [("root/A", "f1")] "A" none "f1" (by decide)
